import Mathlib

/-!
Verification development for the workflow execution engine
(class WorkflowEngine and its helpers).

The engine executes a directed graph of heterogeneous operation nodes.
Each node is resolved against a shared variable store (template placeholders
of the shape double-brace name double-brace), dispatched to a type specific
handler, and its output is extracted back into the variable store; the
traversal then recurses along outgoing edges.

Modelling conventions:
 - JavaScript runtime values that can flow through the engine are modelled
   by the inductive type `Value` (string, integer number, boolean, null,
   object as an insertion-ordered association list, array).  The claims
   exercised here only involve integer numbers, so `Value.num` carries `Int`.
 - The JavaScript object used as the global variable store is modelled as an
   insertion-ordered association list (`VarEnv`); assignment to an existing
   key updates in place, assignment to a new key appends.  This matches the
   enumeration order of `Object.keys` for the non-integer-like keys used by
   the engine and by every statement below.
 - Recursion over `Value` and over input text is expressed with an explicit
   fuel argument so that every definition is structurally recursive and
   kernel-executable; every call site supplies fuel that provably or
   evidently suffices (for text scans the fuel is the character count, for
   values the fuel is `sizeOf`), so the out-of-fuel branches are unreachable.
 - Wall-clock effects (`new Date().toLocaleTimeString()`, `Date.now()`) and
   the external AI invocation service (`executeAiNode`) are parameters,
   collected in the structure `Ext`.
 - The two observer callbacks (`setNodes`, `setLogs`) only hand fresh copies
   of engine state to the caller and are not modelled.
 - The `position` field of nodes is floating-point canvas geometry, never
   read by the engine, and is omitted.
-/

namespace Workflow

/-- JavaScript runtime values flowing through the engine. -/
inductive Value where
  | str  : String → Value
  | num  : Int → Value
  | bool : Bool → Value
  | null : Value
  | obj  : List (String × Value) → Value
  | arr  : List Value → Value
deriving Inhabited

deriving instance DecidableEq for Except

/-- Whitespace as matched by the backslash-s class of the template regex and
by String.prototype.trim. -/
def isWsChar (c : Char) : Bool :=
  c == ' ' || c == '\t' || c == '\n' || c == '\r' || c == '\x0b' || c == '\x0c'

/-- s.startsWith(pre), on the character lists (kernel-executable). -/
def strStartsWith (s pre : String) : Bool :=
  pre.data.isPrefixOf s.data

/-- s.endsWith(suf), on the character lists (kernel-executable). -/
def strEndsWith (s suf : String) : Bool :=
  suf.data.reverse.isPrefixOf s.data.reverse

/-- s.length, counting characters. -/
def strLength (s : String) : Nat := s.data.length

/-- s.substring(0, n), the first n characters. -/
def strTake (s : String) (n : Nat) : String := String.mk (s.data.take n)

/-- Drop the first n characters. -/
def strDrop (s : String) (n : Nat) : String := String.mk (s.data.drop n)

/-- Drop the last n characters. -/
def strDropRight (s : String) (n : Nat) : String :=
  String.mk (s.data.take (s.data.length - n))

/-- Drop trailing whitespace from a character list. -/
def dropTrailingWs (l : List Char) : List Char :=
  (l.reverse.dropWhile isWsChar).reverse

/-- s.trim(): remove leading and trailing whitespace. -/
def strTrim (s : String) : String :=
  String.mk (dropTrailingWs (s.data.dropWhile isWsChar))

/-- Escape of one character inside a JSON string literal, as produced by
JSON.stringify for the characters that can actually occur here. -/
def escapeJsonChar (c : Char) : String :=
  if c = '\"' then "\\\""
  else if c = '\\' then "\\\\"
  else if c = '\n' then "\\n"
  else if c = '\t' then "\\t"
  else if c = '\r' then "\\r"
  else String.singleton c

/-- JSON string literal with quotes, as produced by JSON.stringify. -/
def quoteJson (s : String) : String :=
  "\"" ++ String.join (s.data.map escapeJsonChar) ++ "\""

/-- JSON.stringify(v) with no indentation, used when substituting an
object-typed variable into template text. -/
def stringifyCompact : Value → String
  | .null => "null"
  | .bool b => cond b "true" "false"
  | .num n => toString n
  | .str s => quoteJson s
  | .arr xs =>
      "[" ++ String.intercalate "," (xs.attach.map (fun x => stringifyCompact x.1)) ++ "]"
  | .obj fs =>
      "\x7b" ++
        String.intercalate ","
          (fs.attach.map (fun f => quoteJson f.1.1 ++ ":" ++ stringifyCompact f.1.2)) ++
      "\x7d"
termination_by v => sizeOf v
decreasing_by
  · have h := List.sizeOf_lt_of_mem x.2
    simp only [Value.arr.sizeOf_spec]
    omega
  · obtain ⟨⟨a, b⟩, hf⟩ := f
    have h := List.sizeOf_lt_of_mem hf
    simp only [Prod.mk.sizeOf_spec] at h
    simp only [Value.obj.sizeOf_spec]
    omega

/-- Indentation prefix used by JSON.stringify(v, replacer, 2). -/
def indentStr (k : Nat) : String := String.mk (List.replicate (2 * k) ' ')

/-- Pretty JSON.stringify with two-space indentation, as produced with an
indent argument of 2. -/
def spretty (k : Nat) : Value → String
  | .null => "null"
  | .bool b => cond b "true" "false"
  | .num n => toString n
  | .str s => quoteJson s
  | .arr [] => "[]"
  | .arr xs =>
      "[\n" ++
        String.intercalate ",\n"
          (xs.attach.map (fun x => indentStr (k + 1) ++ spretty (k + 1) x.1)) ++
      "\n" ++ indentStr k ++ "]"
  | .obj [] => "\x7b\x7d"
  | .obj fs =>
      "\x7b\n" ++
        String.intercalate ",\n"
          (fs.attach.map (fun f =>
            indentStr (k + 1) ++ quoteJson f.1.1 ++ ": " ++ spretty (k + 1) f.1.2)) ++
      "\n" ++ indentStr k ++ "\x7d"
termination_by v => sizeOf v
decreasing_by
  · have h := List.sizeOf_lt_of_mem x.2
    simp only [Value.arr.sizeOf_spec]
    omega
  · obtain ⟨⟨a, b⟩, hf⟩ := f
    have h := List.sizeOf_lt_of_mem hf
    simp only [Prod.mk.sizeOf_spec] at h
    simp only [Value.obj.sizeOf_spec]
    omega

/-- The replacer passed to JSON.stringify by getSafeContext, applied as a
pre-pass over the value tree: string leaves that look like data URLs beyond
500 characters are redacted, other strings beyond 5000 characters are
truncated. -/
def redact : Value → Value
  | .str s =>
      if strStartsWith s "data:" && decide (500 < strLength s) then .str "[Image Data]"
      else if decide (5000 < strLength s) then .str (strTake s 5000 ++ "... [Truncated]")
      else .str s
  | .obj fs => .obj (fs.attach.map (fun f => (f.1.1, redact f.1.2)))
  | .arr xs => .arr (xs.attach.map (fun x => redact x.1))
  | v => v
termination_by v => sizeOf v
decreasing_by
  · obtain ⟨⟨a, b⟩, hf⟩ := f
    have h := List.sizeOf_lt_of_mem hf
    simp only [Prod.mk.sizeOf_spec] at h
    simp only [Value.obj.sizeOf_spec]
    omega
  · have h := List.sizeOf_lt_of_mem x.2
    simp only [Value.arr.sizeOf_spec]
    omega

/-- WorkflowEngine.getSafeContext: sanitizes a prior node output for use as
AI text context.  Strings that are data URLs are replaced by a fixed marker,
plain strings longer than 50000 characters are truncated; objects are
serialized with indentation after redacting oversized string fields; other
primitives go through String(input).  (Serialization of an inductive `Value`
cannot throw, so the try/catch fallback of the source is unreachable.) -/
def getSafeContext : Value → String
  | .str s =>
      if strStartsWith s "data:" then "[Image Data URL - Content Omitted from Text Context]"
      else if decide (50000 < strLength s) then strTake s 50000 ++ "... [Truncated]"
      else s
  | .obj fs => spretty 0 (redact (.obj fs))
  | .arr xs => spretty 0 (redact (.arr xs))
  | .null => "null"
  | .num n => toString n
  | .bool b => cond b "true" "false"

/-- The global variable store: an insertion-ordered association list. -/
abbrev VarEnv := List (String × Value)

/-- Direct lookup in the variable store. -/
def lookupVar (vars : VarEnv) (k : String) : Option Value :=
  (vars.find? (fun p => p.1 == k)).map (fun p => p.2)

/-- this.variables.hasOwnProperty(k). -/
def hasVar (vars : VarEnv) (k : String) : Bool :=
  vars.any (fun p => p.1 == k)

/-- Object.keys(this.variables): keys in insertion order. -/
def envKeys (vars : VarEnv) : List String := vars.map (fun p => p.1)

/-- this.variables[k] = v: update in place when the key exists, append
otherwise (JavaScript object assignment, insertion order preserved). -/
def setVar (vars : VarEnv) (k : String) (v : Value) : VarEnv :=
  if hasVar vars k then vars.map (fun p => if p.1 == k then (k, v) else p)
  else vars ++ [(k, v)]

/-- The error message thrown for an unresolved variable: it carries the
requested name and Object.keys(this.variables) joined with a comma. -/
def unresolvedMsg (name : String) (known : List String) : String :=
  "Variable \x27" ++ name ++ "\x27 not found. Available: " ++
    String.intercalate ", " known

/-- Characters allowed in a placeholder name: ASCII letters, digits,
underscore and hyphen. -/
def isVarNameChar (c : Char) : Bool :=
  ('a' ≤ c && c ≤ 'z') || ('A' ≤ c && c ≤ 'Z') || ('0' ≤ c && c ≤ '9') ||
    c == '_' || c == '-'

/-- Attempt to match the placeholder pattern (two opening braces, optional
whitespace, a nonempty name, optional whitespace, two closing braces) at the
head of the character list; on success returns the name and the characters
after the match. -/
def tryMatch : List Char → Option (String × List Char)
  | '\x7b' :: '\x7b' :: rest =>
      if ((rest.dropWhile isWsChar).takeWhile isVarNameChar).isEmpty then none
      else
        match ((rest.dropWhile isWsChar).dropWhile isVarNameChar).dropWhile isWsChar with
        | '\x7d' :: '\x7d' :: r3 =>
            some (String.mk ((rest.dropWhile isWsChar).takeWhile isVarNameChar), r3)
        | _ => none
  | _ => none

/-- The string substituted for a resolved variable: JSON.stringify for
object-typed values (objects, arrays, null), String(val) otherwise. -/
def substValue : Value → String
  | .str s => s
  | .num n => toString n
  | .bool b => cond b "true" "false"
  | .null => stringifyCompact .null
  | .obj fs => stringifyCompact (.obj fs)
  | .arr xs => stringifyCompact (.arr xs)

/-- The left-to-right scan performed by String.replace with the global
placeholder regex: at each position, either a placeholder matches and is
replaced (throwing when its name is unknown), or one character is copied.
The fuel is the character count of the scanned text, which always
suffices because every step consumes at least one character. -/
def resolveScan (vars : VarEnv) : Nat → List Char → Except String String
  | 0, [] => .ok ""
  | _ + 1, [] => .ok ""
  | 0, _ :: _ => .error "out of fuel"
  | n + 1, c :: cs =>
      match tryMatch (c :: cs) with
      | some (name, rest) =>
          match lookupVar vars name with
          | some v =>
              match resolveScan vars n rest with
              | .ok tail => .ok (substValue v ++ tail)
              | .error e => .error e
          | none => .error (unresolvedMsg name (envKeys vars))
      | none =>
          match resolveScan vars n cs with
          | .ok tail => .ok (String.singleton c ++ tail)
          | .error e => .error e

/-- The placeholder names matched by the same scan, in order. -/
def placeholderNames : Nat → List Char → List String
  | 0, [] => []
  | _ + 1, [] => []
  | 0, _ :: _ => []
  | n + 1, c :: cs =>
      match tryMatch (c :: cs) with
      | some (name, rest) => name :: placeholderNames n rest
      | none => placeholderNames n cs

/-- The placeholder names occurring in a string. -/
def placeholders (s : String) : List String :=
  placeholderNames s.data.length s.data

/-- WorkflowEngine.resolveVariables: replaces placeholders in a string with
values from the global store; empty (or absent) input yields the empty
string; an unknown name aborts the whole resolution. -/
def resolveVariables (vars : VarEnv) (text : String) : Except String String :=
  if text == "" then .ok ""
  else resolveScan vars text.data.length text.data

/-- The stripping performed by resolveVariableValue: trim, then remove a
leading pair of opening braces with following whitespace and a trailing
pair of closing braces with preceding whitespace. -/
def stripVarName (s : String) : String :=
  let t := strTrim s
  let t1 := if strStartsWith t "\x7b\x7b"
    then String.mk ((strDrop t 2).data.dropWhile isWsChar) else t
  if strEndsWith t1 "\x7d\x7d"
    then String.mk (dropTrailingWs (strDropRight t1 2).data) else t1

/-- WorkflowEngine.resolveVariableValue: strips optional surrounding
placeholder braces and performs a direct lookup, throwing when absent. -/
def resolveVariableValue (vars : VarEnv) (varName : String) : Except String Value :=
  let stripped := stripVarName varName
  match lookupVar vars stripped with
  | some v => .ok v
  | none => .error (unresolvedMsg stripped (envKeys vars))

/-- resolveVariableValue as invoked on the value field of an input entry.
Before resolution that field holds the variable name as a string; were a
non-string ever stored there, varName.trim() would raise a TypeError, which
the caller catches like any other resolution failure. -/
def resolveVariableValueV (vars : VarEnv) : Value → Except String Value
  | .str s => resolveVariableValue vars s
  | _ => .error "varName.trim is not a function"

/-! JSON.parse, as used for the webhook simulation payload.  Modelled for
the JSON fragment the engine can meet in the claims: objects, arrays,
strings with simple escapes, integer numbers, booleans and null.  The fuel
argument makes the parser structurally recursive; the top entry point
supplies the character count plus one, which suffices because every
recursive call consumes at least one character. -/

/-- Whitespace skipped by JSON.parse. -/
def isJsonWs (c : Char) : Bool :=
  c == ' ' || c == '\t' || c == '\n' || c == '\r'

/-- Decimal digit test. -/
def isDigitChar (c : Char) : Bool := '0' ≤ c && c ≤ '9'

/-- Digits to a natural number, most significant first. -/
def digitsToNat : List Char → Nat → Nat
  | [], acc => acc
  | c :: cs, acc => digitsToNat cs (acc * 10 + (c.toNat - '0'.toNat))

/-- Body of a JSON string literal after the opening quote; returns the
decoded string and the characters after the closing quote. -/
def parseStringBody : List Char → List Char → Except String (String × List Char)
  | [], _ => .error "Unterminated string in JSON"
  | '\"' :: rest, acc => .ok (String.mk acc.reverse, rest)
  | '\\' :: c :: rest, acc =>
      if c = '\"' then parseStringBody rest ('\"' :: acc)
      else if c = '\\' then parseStringBody rest ('\\' :: acc)
      else if c = '/' then parseStringBody rest ('/' :: acc)
      else if c = 'n' then parseStringBody rest ('\n' :: acc)
      else if c = 't' then parseStringBody rest ('\t' :: acc)
      else if c = 'r' then parseStringBody rest ('\r' :: acc)
      else .error "Unsupported escape in JSON string"
  | '\\' :: [], _ => .error "Unterminated string in JSON"
  | c :: rest, acc => parseStringBody rest (c :: acc)

mutual

/-- One JSON value, leading whitespace allowed. -/
def parseJsonValue : Nat → List Char → Except String (Value × List Char)
  | 0, _ => .error "JSON out of fuel"
  | n + 1, cs =>
      let cs1 := cs.dropWhile isJsonWs
      if "null".data.isPrefixOf cs1 then .ok (.null, cs1.drop 4)
      else if "true".data.isPrefixOf cs1 then .ok (.bool true, cs1.drop 4)
      else if "false".data.isPrefixOf cs1 then .ok (.bool false, cs1.drop 5)
      else
        match cs1 with
        | '\"' :: rest => (parseStringBody rest []).map (fun r => (.str r.1, r.2))
        | '\x7b' :: rest => parseJsonMembers n rest []
        | '[' :: rest => parseJsonElems n rest []
        | '-' :: rest =>
            let ds := rest.takeWhile isDigitChar
            if ds.isEmpty then .error "Unexpected token in JSON"
            else .ok (.num (-(Int.ofNat (digitsToNat ds 0))), rest.dropWhile isDigitChar)
        | c :: _ =>
            if isDigitChar c then
              let ds := cs1.takeWhile isDigitChar
              .ok (.num (Int.ofNat (digitsToNat ds 0)), cs1.dropWhile isDigitChar)
            else .error "Unexpected token in JSON"
        | [] => .error "Unexpected end of JSON input"

/-- Members of a JSON object after the opening brace (or after a comma),
with the members parsed so far. -/
def parseJsonMembers : Nat → List Char → List (String × Value) →
    Except String (Value × List Char)
  | 0, _, _ => .error "JSON out of fuel"
  | n + 1, cs, acc =>
      let cs1 := cs.dropWhile isJsonWs
      match cs1 with
      | '\x7d' :: rest =>
          if acc.isEmpty then .ok (.obj [], rest)
          else .error "Unexpected token in JSON"
      | '\"' :: rest =>
          match parseStringBody rest [] with
          | .error e => .error e
          | .ok (key, afterKey) =>
              match afterKey.dropWhile isJsonWs with
              | ':' :: afterColon =>
                  match parseJsonValue n afterColon with
                  | .error e => .error e
                  | .ok (v, afterVal) =>
                      match afterVal.dropWhile isJsonWs with
                      | ',' :: afterComma => parseJsonMembers n afterComma ((key, v) :: acc)
                      | '\x7d' :: rest2 => .ok (.obj (((key, v) :: acc).reverse), rest2)
                      | _ => .error "Expected comma or closing brace in JSON"
              | _ => .error "Expected colon in JSON"
      | _ => .error "Expected string key in JSON"

/-- Elements of a JSON array after the opening bracket (or after a comma),
with the elements parsed so far. -/
def parseJsonElems : Nat → List Char → List Value → Except String (Value × List Char)
  | 0, _, _ => .error "JSON out of fuel"
  | n + 1, cs, acc =>
      let cs1 := cs.dropWhile isJsonWs
      match cs1 with
      | ']' :: rest =>
          if acc.isEmpty then .ok (.arr [], rest)
          else .error "Unexpected token in JSON"
      | _ =>
          match parseJsonValue n cs1 with
          | .error e => .error e
          | .ok (v, afterVal) =>
              match afterVal.dropWhile isJsonWs with
              | ',' :: afterComma => parseJsonElems n afterComma (v :: acc)
              | ']' :: rest2 => .ok (.arr ((v :: acc).reverse), rest2)
              | _ => .error "Expected comma or closing bracket in JSON"

end

/-- JSON.parse on a string: parse one value and require only whitespace
after it. -/
def jsonParse (s : String) : Except String Value :=
  match parseJsonValue (s.data.length + 1) s.data with
  | .error e => .error e
  | .ok (v, rest) =>
      if (rest.dropWhile isJsonWs).isEmpty then .ok v
      else .error "Unexpected non-whitespace character after JSON"

/-! The data model of the workflow graph (types.ts) and the engine state. -/

/-- Node types.  The source spells them webhook, ai-text, ai-image,
condition, loop, api, variable; the trigger type is webhook. -/
inductive NodeType where
  | webhook | aiText | aiImage | condition | loop | api | var
deriving DecidableEq, Inhabited

/-- The string form of a node type, used in log lines. -/
def typeStr : NodeType → String
  | .webhook => "webhook"
  | .aiText => "ai-text"
  | .aiImage => "ai-image"
  | .condition => "condition"
  | .loop => "loop"
  | .api => "api"
  | .var => "variable"

/-- Node lifecycle status. -/
inductive Status where
  | idle | running | success | error
deriving DecidableEq, Inhabited

/-- The two kinds of node input reference. -/
inductive InputType where
  | var | file
deriving DecidableEq, Inhabited

/-- One entry of data.inputs.  The value field holds the variable name or
the inline file payload as a string before resolution; the engine stores
the resolved runtime value into the same field, so the model gives the
field type `Value` and configuration strings are injected with
`Value.str`. -/
structure NodeInput where
  id : String
  type : InputType
  value : Value
deriving Inhabited

/-- One output mapping rule field-to-variable.  The target name is called
variable in the source; that word is reserved here. -/
structure OutputMapping where
  field : String
  varName : String
deriving DecidableEq, Inhabited

/-- One mock form-data field of the webhook simulation. -/
structure WebhookFormField where
  id : String
  key : String
  fieldType : String
  value : String
deriving DecidableEq, Inhabited

/-- The content type of the webhook simulation payload. -/
inductive WebhookContentType where
  | json | formData
deriving DecidableEq, Inhabited

/-- Node configuration bag (interface NodeData).  Runtime-only fields
(status, outputValue, errorMessage) are mutated by the engine through
updateNodeStatus. -/
structure NodeData where
  label : String
  description : Option String := none
  prompt : Option String := none
  model : Option String := none
  inputImage : Option Value := none
  inputImageVariable : Option String := none
  inputs : List NodeInput := []
  variableName : Option String := none
  outputVariableName : Option String := none
  outputMappings : List OutputMapping := []
  condition : Option String := none
  apiUrl : Option String := none
  webhookContentType : Option WebhookContentType := none
  webhookPayload : Option String := none
  webhookFormData : List WebhookFormField := []
  loopArray : Option String := none
  outputValue : Option Value := none
  status : Option Status := none
  errorMessage : Option String := none
deriving Inhabited

/-- A workflow node (the position field is canvas geometry, never read by
the engine, and is omitted). -/
structure Node where
  id : String
  type : NodeType
  data : NodeData
deriving Inhabited

/-- A directed edge of the workflow graph. -/
structure Edge where
  id : String
  source : String
  target : String
  sourceHandle : Option String := none
  targetHandle : Option String := none
deriving DecidableEq, Inhabited

/-- The mutable state of class WorkflowEngine: the private node copies, the
edge list, the accumulated log lines and the global variable store.  The
two observer callbacks only receive copies and are not part of the state. -/
structure WorkflowEngine where
  nodes : List Node
  edges : List Edge
  logs : List String
  vars : VarEnv
deriving Inhabited

/-- The external world: the wall-clock readings and the AI invocation
service executeAiNode of geminiService, which is the only true I/O
boundary and enters the model as an uninterpreted function from the
resolved node configuration and the context string to a result or an
error message. -/
structure Ext where
  timeStr : String
  now : Int
  ai : NodeData → String → Except String Value

/-- Truthiness of an optional string: JavaScript treats undefined and the
empty string as falsy. -/
def strOptTruthy : Option String → Bool
  | some s => !(s == "")
  | none => false

/-- WorkflowEngine.log: append a timestamped line. -/
def logLine (ext : Ext) (eng : WorkflowEngine) (message : String) : WorkflowEngine :=
  { eng with logs := eng.logs ++ ["[" ++ ext.timeStr ++ "] " ++ message] }

/-- The per-node update performed by updateNodeStatus: status is always
set, outputValue only when a new output is supplied, errorMessage is set
to the supplied error (hence cleared when none is supplied). -/
def updF (i : String) (st : Status) (output : Option Value) (error : Option String)
    (n : Node) : Node :=
  if n.id == i then
    { n with data :=
      { n.data with
        status := some st
        outputValue := match output with | some o => some o | none => n.data.outputValue
        errorMessage := error } }
  else n

/-- WorkflowEngine.updateNodeStatus. -/
def updateNodeStatus (eng : WorkflowEngine) (i : String) (st : Status)
    (output : Option Value) (error : Option String) : WorkflowEngine :=
  { eng with nodes := eng.nodes.map (updF i st output error) }

/-- The first node with the given id. -/
def findNodeL (ns : List Node) (i : String) : Option Node :=
  ns.find? (fun n => n.id == i)

/-- The status of the node with the given id. -/
def statusOf (eng : WorkflowEngine) (i : String) : Option Status :=
  match findNodeL eng.nodes i with
  | some n => n.data.status
  | none => none

/-- The errorMessage of the node with the given id. -/
def errorMessageOf (eng : WorkflowEngine) (i : String) : Option String :=
  match findNodeL eng.nodes i with
  | some n => n.data.errorMessage
  | none => none

/-- The outputValue of the node with the given id. -/
def outputValueOf (eng : WorkflowEngine) (i : String) : Option Value :=
  match findNodeL eng.nodes i with
  | some n => n.data.outputValue
  | none => none

/-- WorkflowEngine.resolveInputs: resolve the list of inputs for AI nodes.
Variable references are resolved against the store; a failed resolution is
logged as a warning and the entry passes through unchanged; file entries
pass through unchanged. -/
def resolveInputs (ext : Ext) : WorkflowEngine → List NodeInput →
    WorkflowEngine × List NodeInput
  | eng, [] => (eng, [])
  | eng, i :: is =>
      let step : WorkflowEngine × NodeInput :=
        match i.type with
        | .var =>
            match resolveVariableValueV eng.vars i.value with
            | .ok v => (eng, { i with value := v })
            | .error e => (logLine ext eng ("Warning: " ++ e), i)
        | .file => (eng, i)
      let rest := resolveInputs ext step.1 is
      (rest.1, step.2 :: rest.2)

/-- WorkflowEngine.resolveInputImage: legacy single-image resolution; a
configured variable reference is resolved (failures rethrown with the same
message), otherwise the inline payload is used. -/
def resolveInputImage (vars : VarEnv) (d : NodeData) : Except String (Option Value) :=
  if strOptTruthy d.inputImageVariable then
    match resolveVariableValue vars (d.inputImageVariable.getD "") with
    | .ok v => .ok (some v)
    | .error e => .error e
  else .ok d.inputImage

/-- Step 1 of executeNode: the resolution of the configuration against the
variable store, on a copy of the node data: the prompt and the API URL are
template-resolved (failures abort), then either the new multi-input list is
resolved (failures are warnings) or the legacy single input image is
resolved (failures abort). -/
def resolveNodeData (ext : Ext) (eng : WorkflowEngine) (d : NodeData) :
    WorkflowEngine × Except String NodeData :=
  match (if strOptTruthy d.prompt then
          (resolveVariables eng.vars (d.prompt.getD "")).map (fun p => some p)
         else .ok d.prompt) with
  | .error e => (eng, .error e)
  | .ok prompt1 =>
      match (if strOptTruthy d.apiUrl then
              (resolveVariables eng.vars (d.apiUrl.getD "")).map (fun u => some u)
             else .ok d.apiUrl) with
      | .error e => (eng, .error e)
      | .ok url1 =>
          if !d.inputs.isEmpty then
            ((resolveInputs ext eng d.inputs).1,
             .ok { d with prompt := prompt1, apiUrl := url1, inputs := (resolveInputs ext eng d.inputs).2 })
          else
            match resolveInputImage eng.vars
                { d with prompt := prompt1, apiUrl := url1 } with
            | .ok img =>
                (eng, .ok { d with prompt := prompt1, apiUrl := url1, inputImage := img })
            | .error e => (eng, .error e)

/-- The switch of executeNode: the type-specific handler producing the
output value from the resolved configuration and the inbound payload. -/
def dispatch (ext : Ext) (eng : WorkflowEngine) (node : Node) (pd : NodeData)
    (input : Value) : WorkflowEngine × Except String Value :=
  match node.type with
  | .webhook =>
      if pd.webhookContentType == some .formData then
        let fdObj := pd.webhookFormData.foldl
          (fun acc f => if !(f.key == "") then setVar acc f.key (.str f.value) else acc) []
        (logLine ext eng "Loaded simulation Form-Data payload.", .ok (.obj fdObj))
      else
        if strOptTruthy pd.webhookPayload then
          match jsonParse (pd.webhookPayload.getD "") with
          | .ok v => (logLine ext eng "Loaded simulation JSON payload.", .ok v)
          | .error _ =>
              (logLine ext eng "Error parsing Webhook payload, using default.",
               .ok (.obj [("error", .str "Invalid JSON Payload"),
                          ("raw", .str (pd.webhookPayload.getD ""))]))
        else (eng, .ok (.obj [("trigger", .str "manual"), ("timestamp", .num ext.now)]))
  | .aiText =>
      let textContext := getSafeContext input
      let pd1 := if !(strOptTruthy pd.model) then { pd with model := some "gemini-2.5-flash" } else pd
      (eng, ext.ai pd1 textContext)
  | .aiImage =>
      let eng1 := logLine ext eng "Requesting image generation/editing..."
      let imageContext := getSafeContext input
      let pd1 := if !(strOptTruthy pd.model) then { pd with model := some "gemini-2.5-flash-image" } else pd
      (eng1, ext.ai pd1 imageContext)
  | .var => (eng, .ok input)
  | .api =>
      let eng1 := logLine ext eng
        ("Calling API: " ++ (if strOptTruthy pd.apiUrl then pd.apiUrl.getD "" else "No URL"))
      (eng1, .ok (.obj [("status", .num 200), ("data", .obj [("mock", .str "result")])]))
  | .condition =>
      let eng1 := logLine ext eng ("Checking condition: " ++ pd.condition.getD "")
      (eng1, .ok input)
  | .loop => (eng, .ok input)

/-- typeof outputData is object and outputData is not null. -/
def isStructured : Value → Bool
  | .obj _ => true
  | .arr _ => true
  | _ => false

/-- outputData.hasOwnProperty(k): own properties of objects; for arrays the
length property and the canonical indices. -/
def hasOwnProp : Value → String → Bool
  | .obj fs, k => fs.any (fun f => f.1 == k)
  | .arr xs, k =>
      k == "length" ||
        (match k.toNat? with
         | some i => decide (i < xs.length) && toString i == k
         | none => false)
  | _, _ => false

/-- outputData[k] for a present property. -/
def getOwnProp : Value → String → Option Value
  | .obj fs, k => (fs.find? (fun f => f.1 == k)).map (fun f => f.2)
  | .arr xs, k =>
      if k == "length" then some (.num (Int.ofNat xs.length))
      else
        match k.toNat? with
        | some i => if h : i < xs.length then some (xs.get ⟨i, h⟩) else none
        | none => none
  | _, _ => none

/-- Step 2a of executeNode: store the whole output under the primary
output variable name when one is configured and nonempty after trimming. -/
def storePrimaryOutput (ext : Ext) (eng : WorkflowEngine) (node : Node) (output : Value) :
    WorkflowEngine :=
  if strOptTruthy node.data.outputVariableName then
    if !(strTrim (node.data.outputVariableName.getD "") == "") then
      logLine ext
        { eng with vars := setVar eng.vars (strTrim (node.data.outputVariableName.getD "")) output }
        ("Stored output to variable \x27" ++
          strTrim (node.data.outputVariableName.getD "") ++ "\x27")
    else eng
  else eng

/-- One output mapping applied to the structured output: a mapping whose
field and variable are both nonempty looks the trimmed field up on the
output; a present field is written to the store, an absent one is skipped
with a warning. -/
def applyMapping (ext : Ext) (output : Value) (acc : WorkflowEngine) (m : OutputMapping) :
    WorkflowEngine :=
  if !(m.field == "") && !(m.varName == "") then
    match getOwnProp output (strTrim m.field) with
    | some v =>
        logLine ext { acc with vars := setVar acc.vars (strTrim m.varName) v }
          ("Stored field \x27" ++ strTrim m.field ++ "\x27 to variable \x27" ++
            strTrim m.varName ++ "\x27")
    | none =>
        logLine ext acc
          ("Warning: Field \x27" ++ strTrim m.field ++ "\x27 not found in output.")
  else acc

/-- Step 2 of executeNode: the primary output variable, then the declared
output mappings (all skipped with one warning when the output is not an
object). -/
def storeOutputs (ext : Ext) (eng : WorkflowEngine) (node : Node) (output : Value) :
    WorkflowEngine :=
  if !node.data.outputMappings.isEmpty then
    if isStructured output then
      node.data.outputMappings.foldl (applyMapping ext output)
        (storePrimaryOutput ext eng node output)
    else
      logLine ext (storePrimaryOutput ext eng node output)
        "Warning: Output Mappings ignored because output is not an object."
  else storePrimaryOutput ext eng node output

/-- The part of executeNode guarded by try before the success branch: mark
running, log, resolve the configuration, dispatch.  An error result is the
caught exception. -/
def nodePipeline (ext : Ext) (eng : WorkflowEngine) (node : Node) (input : Value) :
    WorkflowEngine × Except String Value :=
  match resolveNodeData ext
      (logLine ext (updateNodeStatus eng node.id .running none none)
        ("Executing node: " ++ node.data.label ++ " (" ++ typeStr node.type ++ ")"))
      node.data with
  | (eng3, .error e) => (eng3, .error e)
  | (eng3, .ok pd) => dispatch ext eng3 node pd input

/-- The catch branch of executeNode: mark the node as error with the thrown
message and log it; descent into children does not happen. -/
def catchErr (ext : Ext) (eng : WorkflowEngine) (node : Node) (msg : String) :
    WorkflowEngine :=
  logLine ext (updateNodeStatus eng node.id .error none (some msg))
    ("Error in node " ++ node.data.label ++ ": " ++ msg)

/-- The loop over outgoing edges: look each target up among the current
nodes and execute it sequentially with the parent output as its inbound
payload.  The recursive executeNode call is passed in; a none result
(divergence) propagates. -/
def runEdges (recur : WorkflowEngine → Node → Value → Option WorkflowEngine) :
    WorkflowEngine → List Edge → Value → Option WorkflowEngine
  | eng, [], _ => some eng
  | eng, e :: es, output =>
      match findNodeL eng.nodes e.target with
      | some child =>
          match recur eng child output with
          | some eng1 => runEdges recur eng1 es output
          | none => none
      | none => runEdges recur eng es output

/-- One level of executeNode, parameterized by the recursive call used for
child nodes. -/
def executeNodeStep (recur : WorkflowEngine → Node → Value → Option WorkflowEngine)
    (ext : Ext) (eng : WorkflowEngine) (node : Node) (input : Value) :
    Option WorkflowEngine :=
  match nodePipeline ext eng node input with
  | (eng1, .error e) => some (catchErr ext eng1 node e)
  | (eng1, .ok output) =>
      let eng2 := storeOutputs ext eng1 node output
      let eng3 := updateNodeStatus eng2 node.id .success (some output) none
      let eng4 := logLine ext eng3 ("Node " ++ node.data.label ++ " completed.")
      runEdges recur eng4 (eng4.edges.filter (fun e => e.source == node.id)) output

/-- WorkflowEngine.executeNode.  The source recurses without any guard and
diverges on graphs with cycles; the model makes divergence explicit with a
fuel argument bounding the recursion depth: none models non-termination,
never an exception. -/
def executeNode : Nat → Ext → WorkflowEngine → Node → Value → Option WorkflowEngine
  | 0, _, _, _, _ => none
  | fuel + 1, ext, eng, node, input =>
      executeNodeStep (executeNode fuel ext) ext eng node input

/-- JSON.stringify of Object.keys(this.variables), used by the final log
line of run. -/
def stringifyKeys (keys : List String) : String :=
  "[" ++ String.intercalate "," (keys.map quoteJson) ++ "]"

/-- WorkflowEngine.run: log the start, locate the webhook trigger (failing
the run with a log line only when absent), reset the variable store and
every node to idle with cleared output and error, execute the trigger with
the fixed inbound payload, and log the finish plus the final variable
names. -/
def run (fuel : Nat) (ext : Ext) (eng0 : WorkflowEngine) : Option WorkflowEngine :=
  let eng := logLine ext eng0 "Starting workflow execution..."
  match eng.nodes.find? (fun n => n.type == NodeType.webhook) with
  | none => some (logLine ext eng "Error: No Webhook/Start trigger found.")
  | some startNode =>
      let eng1 := { eng with
        vars := []
        nodes := eng.nodes.map (fun n =>
          { n with data :=
            { n.data with status := some .idle, outputValue := none, errorMessage := none } }) }
      match executeNode fuel ext eng1 startNode (.str "Workflow triggered.") with
      | none => none
      | some eng2 =>
          let eng3 := logLine ext eng2 "Workflow execution finished."
          some (logLine ext eng3
            ("Final Global Variables: " ++ stringifyKeys (envKeys eng3.vars)))

/-! Concrete scenarios used by the claims.  The external service field of
each `Ext` is the stub that the scenario wires in place of the real AI
invocation service. -/

/-- Store with keys deliberately inserted out of alphabetical order. -/
def c3vars : VarEnv := [("b", Value.num 1), ("a", Value.num 2)]

/-- Store with a single known name, for the unresolved-placeholder cases. -/
def c4vars : VarEnv := [("a", Value.num 1)]

/-- A plain string of 50001 characters. -/
def c6long : String := String.mk (List.replicate 50001 'a')

/-- Sibling-isolation scenario: a trigger fanning out to two AI nodes; the
service is stubbed to fail exactly on the prompt FAIL. -/
def c1ext : Ext := {
  timeStr := "T"
  now := 0
  ai := fun d _ => if d.prompt == some "FAIL" then .error "AI failure" else .ok (.str "out") }

def c1trigger : Node := { id := "T1", type := .webhook, data := { label := "Trigger" } }

def c1A : Node := { id := "A", type := .aiText, data := { label := "A", prompt := some "FAIL" } }

def c1B : Node := { id := "B", type := .aiText, data := { label := "B", prompt := some "ok" } }

def c1eng : WorkflowEngine := {
  nodes := [c1trigger, c1A, c1B]
  edges := [{ id := "e1", source := "T1", target := "A" },
            { id := "e2", source := "T1", target := "B" }]
  logs := []
  vars := [] }

def c1res : WorkflowEngine := (run 10 c1ext c1eng).getD default

/-- A node whose prompt references an unknown variable, so that its
pipeline throws during resolution. -/
def c1wnode : Node := {
  id := "W"
  type := .aiText
  data := { label := "W", prompt := some "\x7b\x7bx\x7d\x7d" } }

def c1weng : WorkflowEngine := { nodes := [c1wnode], edges := [], logs := [], vars := [] }

/-- End-to-end scenario of the claim: trigger with JSON payload, one
downstream generate-text node with a templated prompt and output variable
result, service stubbed to return the string 10. -/
def c2ext : Ext := { timeStr := "T", now := 0, ai := fun _ _ => .ok (.str "10") }

def c2trigger : Node := {
  id := "t"
  type := .webhook
  data := { label := "Trigger", webhookPayload := some "\x7b\"n\": 5\x7d" } }

def c2gen : Node := {
  id := "g"
  type := .aiText
  data := { label := "Gen", prompt := some "double \x7b\x7bn\x7d\x7d",
            outputVariableName := some "result" } }

def c2eng : WorkflowEngine := {
  nodes := [c2trigger, c2gen]
  edges := [{ id := "e1", source := "t", target := "g" }]
  logs := []
  vars := [] }

def c2res : WorkflowEngine := (run 10 c2ext c2eng).getD default

/-- The same graph with the trigger additionally declaring the output
mapping field n to variable n, which is what the stated behavior needs. -/
def c2trigger2 : Node := {
  id := "t"
  type := .webhook
  data := { label := "Trigger", webhookPayload := some "\x7b\"n\": 5\x7d",
            outputMappings := [{ field := "n", varName := "n" }] } }

def c2eng2 : WorkflowEngine := { c2eng with nodes := [c2trigger2, c2gen] }

def c2res2 : WorkflowEngine := (run 10 c2ext c2eng2).getD default

/-- Output-extraction scenario: one node declaring the mapping x to n. -/
def c8ext : Ext := { timeStr := "T", now := 0, ai := fun _ _ => .error "unused" }

def c8node : Node := {
  id := "n8"
  type := .api
  data := { label := "N8", outputMappings := [{ field := "x", varName := "n" }] } }

def c8eng : WorkflowEngine := { nodes := [c8node], edges := [], logs := [], vars := [] }

/-- The structured result of the claim example. -/
def c8out : Value := .obj [("x", .num 1), ("y", .num 2)]

/-- A graph without any webhook node, for the no-trigger case. -/
def c9node : Node := { id := "p", type := .api, data := { label := "P" } }

def c9eng : WorkflowEngine := { nodes := [c9node], edges := [], logs := [], vars := [] }

def c9ext : Ext := { timeStr := "T", now := 0, ai := fun _ _ => .ok (.str "x") }

/-- A node whose pipeline throws, for the caught-and-recorded case. -/
def c9wnode : Node := {
  id := "W9"
  type := .aiText
  data := { label := "W9", prompt := some "\x7b\x7bmissing\x7d\x7d" } }

def c9weng : WorkflowEngine := { nodes := [c9wnode], edges := [], logs := [], vars := [] }

/-- Self-loop scenario: a node that stores its result and feeds itself; the
service succeeds on the first context and fails on every later one. -/
def c10ext : Ext := {
  timeStr := "T"
  now := 0
  ai := fun _ ctx => if ctx == "start" then .ok (.str "A") else .error "boom" }

def c10node : Node := {
  id := "m"
  type := .aiText
  data := { label := "M", outputVariableName := some "r" } }

def c10eng : WorkflowEngine := {
  nodes := [c10node]
  edges := [{ id := "e", source := "m", target := "m" }]
  logs := []
  vars := [] }

def c10res : WorkflowEngine := (executeNode 3 c10ext c10eng c10node (.str "start")).getD default

/-! Lemmas about the template scanner. -/

/-- Dropping a prefix cannot lengthen a list. -/
lemma length_dropWhile_le (p : Char → Bool) (l : List Char) :
    (l.dropWhile p).length ≤ l.length := by
  induction l with
  | nil => exact Nat.le_refl _
  | cons a l ih =>
      simp only [List.dropWhile_cons]
      by_cases h : p a
      · rw [if_pos h]
        simp only [List.length_cons]
        omega
      · rw [if_neg h]

/-- A successful placeholder match consumes at least one character. -/
lemma tryMatch_length {cs : List Char} {name : String} {rest : List Char}
    (h : tryMatch cs = some (name, rest)) : rest.length < cs.length := by
  unfold tryMatch at h
  split at h
  next t =>
    by_cases he : ((t.dropWhile isWsChar).takeWhile isVarNameChar).isEmpty
    · rw [if_pos he] at h
      cases h
    · rw [if_neg he] at h
      split at h
      next r3 heq =>
        cases h
        have h1 := length_dropWhile_le isVarNameChar (t.dropWhile isWsChar)
        have h2 := length_dropWhile_le isWsChar t
        have h3 := length_dropWhile_le isWsChar
          ((t.dropWhile isWsChar).dropWhile isVarNameChar)
        have h4 := congrArg List.length heq
        simp only [List.length_cons] at h4 ⊢
        omega
      next => cases h
  next => cases h

/-- Lookup fails exactly when hasOwnProperty is false. -/
lemma lookupVar_eq_none_iff (vars : VarEnv) (k : String) :
    lookupVar vars k = none ↔ hasVar vars k = false := by
  unfold lookupVar hasVar
  induction vars with
  | nil => simp
  | cons p ps ih =>
      by_cases h : p.1 == k
      · simp [List.find?_cons, List.any_cons, h]
      · simpa [List.find?_cons, List.any_cons, h] using ih

/-- A present key yields a value. -/
lemma lookupVar_isSome_of_hasVar {vars : VarEnv} {k : String}
    (h : hasVar vars k = true) : ∃ v, lookupVar vars k = some v := by
  rcases hv : lookupVar vars k with _ | v
  · rw [lookupVar_eq_none_iff] at hv
    rw [h] at hv
    cases hv
  · exact ⟨v, rfl⟩

/-- Prepending one character, on strings. -/
lemma singleton_append_mk (c : Char) (cs : List Char) :
    String.singleton c ++ String.mk cs = String.mk (c :: cs) := rfl

/-- When no placeholder occurs in the scanned text, the scan returns it
unchanged. -/
lemma resolveScan_id_of_no_placeholders (vars : VarEnv) :
    ∀ n (cs : List Char), cs.length ≤ n → placeholderNames n cs = [] →
      resolveScan vars n cs = .ok (String.mk cs) := by
  intro n
  induction n with
  | zero =>
      intro cs hle _
      have : cs = [] := List.eq_nil_of_length_eq_zero (Nat.le_zero.mp hle)
      subst this
      rfl
  | succ n ih =>
      intro cs hle hph
      cases cs with
      | nil => rfl
      | cons c cs' =>
          simp only [placeholderNames] at hph
          simp only [resolveScan]
          rcases htm : tryMatch (c :: cs') with _ | ⟨nm, rest⟩
          · simp only [htm] at hph ⊢
            simp only [List.length_cons] at hle
            rw [ih cs' (by omega) hph]
            rfl
          · simp only [htm] at hph
            exact absurd hph (List.cons_ne_nil _ _)

/-- When the scanned text contains a placeholder whose name is unknown, the
scan aborts with the unresolved-variable message of the first such name. -/
lemma resolveScan_error_of_unresolved (vars : VarEnv) :
    ∀ n (cs : List Char) (v : String), cs.length ≤ n →
      (placeholderNames n cs).find? (fun x => !(hasVar vars x)) = some v →
      resolveScan vars n cs = .error (unresolvedMsg v (envKeys vars)) := by
  intro n
  induction n with
  | zero =>
      intro cs v hle hfind
      have : cs = [] := List.eq_nil_of_length_eq_zero (Nat.le_zero.mp hle)
      subst this
      cases hfind
  | succ n ih =>
      intro cs v hle hfind
      cases cs with
      | nil => cases hfind
      | cons c cs' =>
          simp only [placeholderNames] at hfind
          simp only [resolveScan]
          rcases htm : tryMatch (c :: cs') with _ | ⟨nm, rest⟩
          · simp only [htm] at hfind ⊢
            simp only [List.length_cons] at hle
            rw [ih cs' v (by omega) hfind]
          · simp only [htm] at hfind ⊢
            rw [List.find?_cons] at hfind
            rcases hv : hasVar vars nm with _ | _
            · rw [hv] at hfind
              simp only [Bool.not_false, cond_true] at hfind
              have hnmv : nm = v := by injection hfind
              subst hnmv
              have hnone : lookupVar vars nm = none := (lookupVar_eq_none_iff vars nm).mpr hv
              rw [hnone]
            · rw [hv] at hfind
              simp only [Bool.not_true, cond_false] at hfind
              obtain ⟨val, hval⟩ := lookupVar_isSome_of_hasVar hv
              rw [hval]
              have hrest := tryMatch_length htm
              simp only [List.length_cons] at hle hrest
              rw [ih rest v (by omega) hfind]

/-! Lemmas about the engine state transitions. -/

/-- A state change that can only append log lines: nodes, edges and the
variable store are untouched. -/
def LogOnly (a b : WorkflowEngine) : Prop :=
  b.vars = a.vars ∧ b.nodes = a.nodes ∧ b.edges = a.edges ∧ ∃ w, b.logs = a.logs ++ w

lemma logOnly_refl (a : WorkflowEngine) : LogOnly a a :=
  ⟨rfl, rfl, rfl, [], by simp⟩

lemma logOnly_trans {a b c : WorkflowEngine} (h1 : LogOnly a b) (h2 : LogOnly b c) :
    LogOnly a c := by
  obtain ⟨hv1, hn1, he1, w1, hl1⟩ := h1
  obtain ⟨hv2, hn2, he2, w2, hl2⟩ := h2
  refine ⟨hv2.trans hv1, hn2.trans hn1, he2.trans he1, w1 ++ w2, ?_⟩
  rw [hl2, hl1, List.append_assoc]

lemma logOnly_logLine (ext : Ext) (a : WorkflowEngine) (m : String) :
    LogOnly a (logLine ext a m) :=
  ⟨rfl, rfl, rfl, _, rfl⟩

lemma logOnly_resolveInputs (ext : Ext) :
    ∀ (inputs : List NodeInput) (a : WorkflowEngine),
      LogOnly a (resolveInputs ext a inputs).1 := by
  intro inputs
  induction inputs with
  | nil => intro a; exact logOnly_refl a
  | cons i is ih =>
      intro a
      simp only [resolveInputs]
      rcases i.type with _ | _
      · rcases resolveVariableValueV a.vars i.value with e | v
        · exact logOnly_trans (logOnly_logLine ext a _) (ih _)
        · exact ih a
      · exact ih a

lemma logOnly_resolveNodeData (ext : Ext) (a : WorkflowEngine) (d : NodeData) :
    LogOnly a (resolveNodeData ext a d).1 := by
  unfold resolveNodeData
  split
  · exact logOnly_refl a
  · split
    · exact logOnly_refl a
    · split
      · exact logOnly_resolveInputs ext _ a
      · split
        · exact logOnly_refl a
        · exact logOnly_refl a

lemma logOnly_dispatch (ext : Ext) (a : WorkflowEngine) (node : Node) (pd : NodeData)
    (input : Value) : LogOnly a (dispatch ext a node pd input).1 := by
  unfold dispatch
  split
  · split
    · exact logOnly_logLine ext a _
    · split
      · split
        · exact logOnly_logLine ext a _
        · exact logOnly_logLine ext a _
      · exact logOnly_refl a
  · exact logOnly_refl a
  · exact logOnly_logLine ext a _
  · exact logOnly_refl a
  · exact logOnly_logLine ext a _
  · exact logOnly_logLine ext a _
  · exact logOnly_refl a

lemma nodePipeline_logOnly (ext : Ext) (eng : WorkflowEngine) (node : Node) (input : Value) :
    LogOnly (updateNodeStatus eng node.id .running none none)
      (nodePipeline ext eng node input).1 := by
  unfold nodePipeline
  have hlog := logOnly_logLine ext (updateNodeStatus eng node.id Status.running none none)
    ("Executing node: " ++ node.data.label ++ " (" ++ typeStr node.type ++ ")")
  split
  next eng3 e heq =>
    have h := logOnly_resolveNodeData ext
      (logLine ext (updateNodeStatus eng node.id Status.running none none)
        ("Executing node: " ++ node.data.label ++ " (" ++ typeStr node.type ++ ")")) node.data
    rw [heq] at h
    exact logOnly_trans hlog h
  next eng3 pd heq =>
    have h := logOnly_resolveNodeData ext
      (logLine ext (updateNodeStatus eng node.id Status.running none none)
        ("Executing node: " ++ node.data.label ++ " (" ++ typeStr node.type ++ ")")) node.data
    rw [heq] at h
    exact logOnly_trans (logOnly_trans hlog h) (logOnly_dispatch ext eng3 node pd input)

/-- updateNodeStatus never changes node ids. -/
lemma updF_id (i : String) (st : Status) (o : Option Value) (er : Option String) (n : Node) :
    (updF i st o er n).id = n.id := by
  unfold updF
  split <;> rfl

/-- The update leaves nodes with a different id untouched. -/
lemma updF_ne (i : String) (st : Status) (o : Option Value) (er : Option String)
    (n : Node) (h : ¬ n.id = i) : updF i st o er n = n := by
  unfold updF
  rw [if_neg]
  simpa using h

/-- Node lookup commutes with the per-node update map. -/
lemma findNodeL_map_updF (ns : List Node) (j : String) (st : Status) (o : Option Value)
    (er : Option String) (m : String) :
    findNodeL (ns.map (updF j st o er)) m = (findNodeL ns m).map (updF j st o er) := by
  induction ns with
  | nil => rfl
  | cons n ns ih =>
      unfold findNodeL at *
      simp only [List.map_cons, List.find?_cons, updF_id]
      by_cases h : n.id == m
      · rw [h]
        rfl
      · simp only [Bool.not_eq_true] at h
        rw [h]
        exact ih

/-- The update map preserves the existence of a node with a given id. -/
lemma exists_id_map_updF {ns : List Node} {i : String}
    (h : ∃ n ∈ ns, n.id = i) (j : String) (st : Status) (o : Option Value)
    (er : Option String) : ∃ n ∈ ns.map (updF j st o er), n.id = i := by
  obtain ⟨n, hn, hid⟩ := h
  exact ⟨updF j st o er n, List.mem_map_of_mem _ hn, by rw [updF_id]; exact hid⟩

/-- A node with the wanted id makes the lookup succeed. -/
lemma findNodeL_isSome {ns : List Node} {i : String} (h : ∃ n ∈ ns, n.id = i) :
    ∃ n, findNodeL ns i = some n := by
  induction ns with
  | nil =>
      obtain ⟨n, hn, _⟩ := h
      cases hn
  | cons a ns ih =>
      obtain ⟨n, hn, hid⟩ := h
      unfold findNodeL
      rw [List.find?_cons]
      by_cases ha : a.id == i
      · rw [ha]
        exact ⟨a, rfl⟩
      · simp only [Bool.not_eq_true] at ha
        rw [ha]
        rcases List.mem_cons.mp hn with rfl | hn'
        · rw [hid] at ha
          simp at ha
        · exact ih ⟨n, hn', hid⟩

/-- A found node satisfies the id predicate. -/
lemma findNodeL_some_id {ns : List Node} {i : String} {n : Node}
    (h : findNodeL ns i = some n) : n.id = i := by
  have := List.find?_some h
  simpa using this

/-- Status of untouched nodes after updateNodeStatus. -/
lemma statusOf_update_ne (eng : WorkflowEngine) (i : String) (st : Status)
    (o : Option Value) (er : Option String) (m : String) (h : ¬ m = i) :
    statusOf (updateNodeStatus eng i st o er) m = statusOf eng m := by
  unfold statusOf updateNodeStatus
  simp only
  rw [findNodeL_map_updF]
  rcases hf : findNodeL eng.nodes m with _ | n
  · rfl
  · have hid := findNodeL_some_id hf
    show (updF i st o er n).data.status = n.data.status
    rw [updF_ne i st o er n (by rw [hid]; exact h)]

/-- errorMessage of untouched nodes after updateNodeStatus. -/
lemma errorMessageOf_update_ne (eng : WorkflowEngine) (i : String) (st : Status)
    (o : Option Value) (er : Option String) (m : String) (h : ¬ m = i) :
    errorMessageOf (updateNodeStatus eng i st o er) m = errorMessageOf eng m := by
  unfold errorMessageOf updateNodeStatus
  simp only
  rw [findNodeL_map_updF]
  rcases hf : findNodeL eng.nodes m with _ | n
  · rfl
  · have hid := findNodeL_some_id hf
    show (updF i st o er n).data.errorMessage = n.data.errorMessage
    rw [updF_ne i st o er n (by rw [hid]; exact h)]

/-- outputValue of untouched nodes after updateNodeStatus. -/
lemma outputValueOf_update_ne (eng : WorkflowEngine) (i : String) (st : Status)
    (o : Option Value) (er : Option String) (m : String) (h : ¬ m = i) :
    outputValueOf (updateNodeStatus eng i st o er) m = outputValueOf eng m := by
  unfold outputValueOf updateNodeStatus
  simp only
  rw [findNodeL_map_updF]
  rcases hf : findNodeL eng.nodes m with _ | n
  · rfl
  · have hid := findNodeL_some_id hf
    show (updF i st o er n).data.outputValue = n.data.outputValue
    rw [updF_ne i st o er n (by rw [hid]; exact h)]

/-- Status of the updated node after updateNodeStatus. -/
lemma statusOf_update_self (eng : WorkflowEngine) (i : String) (st : Status)
    (o : Option Value) (er : Option String) (h : ∃ n ∈ eng.nodes, n.id = i) :
    statusOf (updateNodeStatus eng i st o er) i = some st := by
  unfold statusOf updateNodeStatus
  simp only
  rw [findNodeL_map_updF]
  obtain ⟨n, hf⟩ := findNodeL_isSome h
  rw [hf]
  have hid := findNodeL_some_id hf
  show (updF i st o er n).data.status = some st
  unfold updF
  rw [if_pos (by simp [hid])]

/-- errorMessage of the updated node after updateNodeStatus. -/
lemma errorMessageOf_update_self (eng : WorkflowEngine) (i : String) (st : Status)
    (o : Option Value) (er : Option String) (h : ∃ n ∈ eng.nodes, n.id = i) :
    errorMessageOf (updateNodeStatus eng i st o er) i = er := by
  unfold errorMessageOf updateNodeStatus
  simp only
  rw [findNodeL_map_updF]
  obtain ⟨n, hf⟩ := findNodeL_isSome h
  rw [hf]
  have hid := findNodeL_some_id hf
  show (updF i st o er n).data.errorMessage = er
  unfold updF
  rw [if_pos (by simp [hid])]

/-- When the guarded pipeline of a node throws, executeNode returns the
catch state and never descends into children. -/
lemma executeNode_pipeline_error (fuel : Nat) (ext : Ext) (eng : WorkflowEngine)
    (node : Node) (input : Value) (eng1 : WorkflowEngine) (msg : String)
    (hp : nodePipeline ext eng node input = (eng1, .error msg)) :
    executeNode (fuel + 1) ext eng node input = some (catchErr ext eng1 node msg) := by
  show executeNodeStep (executeNode fuel ext) ext eng node input = _
  unfold executeNodeStep
  rw [hp]

/-- Full characterization of the caught-error state: the failing node is
marked error with the thrown message; every other node, the variable store
and the edge list are untouched; log lines are only appended. -/
lemma catchErr_spec (ext : Ext) (eng eng1 : WorkflowEngine) (node : Node) (msg : String)
    (hlo : LogOnly (updateNodeStatus eng node.id .running none none) eng1)
    (hmem : ∃ n ∈ eng.nodes, n.id = node.id) :
    statusOf (catchErr ext eng1 node msg) node.id = some .error ∧
    errorMessageOf (catchErr ext eng1 node msg) node.id = some msg ∧
    (catchErr ext eng1 node msg).vars = eng.vars ∧
    (catchErr ext eng1 node msg).edges = eng.edges ∧
    (∀ m, ¬ m = node.id →
      statusOf (catchErr ext eng1 node msg) m = statusOf eng m ∧
      errorMessageOf (catchErr ext eng1 node msg) m = errorMessageOf eng m ∧
      outputValueOf (catchErr ext eng1 node msg) m = outputValueOf eng m) ∧
    ∃ w, (catchErr ext eng1 node msg).logs = eng.logs ++ w := by
  obtain ⟨hv, hn, he, w, hl⟩ := hlo
  have hmem1 : ∃ n ∈ eng1.nodes, n.id = node.id := by
    rw [hn]
    exact exists_id_map_updF hmem node.id Status.running none none
  constructor
  · show statusOf (updateNodeStatus eng1 node.id .error none (some msg)) node.id = some .error
    exact statusOf_update_self eng1 node.id .error none (some msg) hmem1
  constructor
  · show errorMessageOf (updateNodeStatus eng1 node.id .error none (some msg)) node.id = some msg
    exact errorMessageOf_update_self eng1 node.id .error none (some msg) hmem1
  constructor
  · show eng1.vars = eng.vars
    exact hv
  constructor
  · show eng1.edges = eng.edges
    exact he
  constructor
  · intro m hm
    refine ⟨?_, ?_, ?_⟩
    · show statusOf (updateNodeStatus eng1 node.id .error none (some msg)) m = statusOf eng m
      rw [statusOf_update_ne eng1 node.id .error none (some msg) m hm]
      have h1 : statusOf eng1 m = statusOf (updateNodeStatus eng node.id .running none none) m := by
        unfold statusOf
        rw [hn]
      rw [h1, statusOf_update_ne eng node.id .running none none m hm]
    · show errorMessageOf (updateNodeStatus eng1 node.id .error none (some msg)) m
        = errorMessageOf eng m
      rw [errorMessageOf_update_ne eng1 node.id .error none (some msg) m hm]
      have h1 : errorMessageOf eng1 m
          = errorMessageOf (updateNodeStatus eng node.id .running none none) m := by
        unfold errorMessageOf
        rw [hn]
      rw [h1, errorMessageOf_update_ne eng node.id .running none none m hm]
    · show outputValueOf (updateNodeStatus eng1 node.id .error none (some msg)) m
        = outputValueOf eng m
      rw [outputValueOf_update_ne eng1 node.id .error none (some msg) m hm]
      have h1 : outputValueOf eng1 m
          = outputValueOf (updateNodeStatus eng node.id .running none none) m := by
        unfold outputValueOf
        rw [hn]
      rw [h1, outputValueOf_update_ne eng node.id .running none none m hm]
  · refine ⟨w ++ ["[" ++ ext.timeStr ++ "] " ++ ("Error in node " ++ node.data.label ++ ": " ++ msg)], ?_⟩
    show eng1.logs ++ _ = eng.logs ++ _
    rw [hl]
    show (updateNodeStatus eng node.id .running none none).logs ++ w ++ _ = _
    rw [List.append_assoc]
    rfl

/-! The claims. -/

/-- Claim C3, counterexample: the unresolved-variable error lists the
currently-known names in insertion order (b, a), which differs from the
sorted order (a, b) that the claim asserts. -/
theorem C3_sorted_counterexample :
    resolveVariableValue c3vars "c" = .error (unresolvedMsg "c" ["b", "a"]) ∧
    envKeys c3vars = ["b", "a"] ∧
    unresolvedMsg "c" ["b", "a"] ≠ unresolvedMsg "c" ["a", "b"] :=
  ⟨rfl, rfl, by decide⟩

/-- Claim C3 (amended): for every variable name absent from the store, the
lookup fails with an error carrying the requested (brace-stripped) name and
the list of currently-known variable names in insertion order, joined with
a comma. -/
theorem C3_unresolved_message :
    ∀ (vars : VarEnv) (name : String), hasVar vars (stripVarName name) = false →
      resolveVariableValue vars name =
        .error (unresolvedMsg (stripVarName name) (envKeys vars)) := by
  intro vars name h
  simp only [resolveVariableValue]
  rw [(lookupVar_eq_none_iff vars (stripVarName name)).mpr h]

/-- Witness for C3 (amended) at a concrete store and name. -/
theorem C3_unresolved_message_witness :
    hasVar c3vars (stripVarName "c") = false ∧
    resolveVariableValue c3vars "c" =
      .error (unresolvedMsg (stripVarName "c") (envKeys c3vars)) :=
  ⟨by decide, C3_unresolved_message c3vars "c" (by decide)⟩

/-- Claim C4: a string containing a placeholder whose name is not in the
store makes resolveVariables fail with the unresolved-variable error naming
that (first such) placeholder; no partially substituted string is
returned. -/
theorem C4_unresolved_aborts :
    ∀ (vars : VarEnv) (s : String) (v : String),
      (placeholders s).find? (fun x => !(hasVar vars x)) = some v →
      resolveVariables vars s = .error (unresolvedMsg v (envKeys vars)) ∧
      hasVar vars v = false ∧ v ∈ placeholders s := by
  intro vars s v hfind
  have hmemv : v ∈ placeholders s := List.mem_of_find?_eq_some hfind
  have hpred := List.find?_some hfind
  simp only [Bool.not_eq_true'] at hpred
  refine ⟨?_, hpred, hmemv⟩
  unfold resolveVariables
  by_cases hs : s == ""
  · have hs' : s = "" := by simpa using hs
    subst hs'
    cases hfind
  · rw [if_neg (by simpa using hs)]
    exact resolveScan_error_of_unresolved vars s.data.length s.data v (Nat.le_refl _) hfind

/-- Witness for C4 at a concrete store and template. -/
theorem C4_unresolved_aborts_witness :
    (placeholders "x \x7b\x7by\x7d\x7d").find? (fun x => !(hasVar c4vars x)) = some "y" ∧
    (resolveVariables c4vars "x \x7b\x7by\x7d\x7d" =
        .error (unresolvedMsg "y" (envKeys c4vars)) ∧
      hasVar c4vars "y" = false ∧ "y" ∈ placeholders "x \x7b\x7by\x7d\x7d") :=
  ⟨by decide, C4_unresolved_aborts c4vars "x \x7b\x7by\x7d\x7d" "y" (by decide)⟩

/-- Claim C5: resolveVariables returns any placeholder-free string
unchanged, whatever the store holds, and empty input resolves to the empty
string rather than an error. -/
theorem C5_no_placeholder_identity :
    (∀ (vars : VarEnv) (s : String), placeholders s = [] →
      resolveVariables vars s = .ok s) ∧
    (∀ vars : VarEnv, resolveVariables vars "" = .ok "") := by
  constructor
  · intro vars s hph
    unfold resolveVariables
    by_cases hs : s == ""
    · rw [if_pos hs]
      have hs' : s = "" := by simpa using hs
      rw [hs']
    · rw [if_neg (by simpa using hs)]
      rw [resolveScan_id_of_no_placeholders vars s.data.length s.data (Nat.le_refl _) hph]
  · intro vars
    rfl

/-- Witness for C5 at a concrete placeholder-free string. -/
theorem C5_no_placeholder_identity_witness :
    placeholders "hello \x7bworld" = [] ∧
    resolveVariables c4vars "hello \x7bworld" = .ok "hello \x7bworld" :=
  ⟨by decide, C5_no_placeholder_identity.1 c4vars "hello \x7bworld" (by decide)⟩

/-- Claim C6: the context sanitizer returns the fixed redaction marker for
any string with the data URL prefix regardless of length, truncates any
other string longer than 50000 characters to its first 50000 characters
followed by the truncation marker, and returns any other string
unchanged. -/
theorem C6_sanitizer :
    (∀ s : String, strStartsWith s "data:" = true →
      getSafeContext (.str s) = "[Image Data URL - Content Omitted from Text Context]") ∧
    (∀ s : String, strStartsWith s "data:" = false → 50000 < strLength s →
      getSafeContext (.str s) = strTake s 50000 ++ "... [Truncated]") ∧
    (∀ s : String, strStartsWith s "data:" = false → strLength s ≤ 50000 →
      getSafeContext (.str s) = s) := by
  refine ⟨?_, ?_, ?_⟩
  · intro s h
    simp [getSafeContext, h]
  · intro s h hlen
    simp [getSafeContext, h, hlen]
  · intro s h hlen
    simp [getSafeContext, h, Nat.not_lt.mpr hlen]

/-- Witness for C6: one data URL, one 50001-character plain string, one
short plain string. -/
theorem C6_sanitizer_witness :
    (strStartsWith "data:abc" "data:" = true ∧
      getSafeContext (.str "data:abc")
        = "[Image Data URL - Content Omitted from Text Context]") ∧
    (strStartsWith c6long "data:" = false ∧ 50000 < strLength c6long ∧
      getSafeContext (.str c6long) = strTake c6long 50000 ++ "... [Truncated]") ∧
    (strStartsWith "hello" "data:" = false ∧ strLength "hello" ≤ 50000 ∧
      getSafeContext (.str "hello") = "hello") := by
  have hfalse : strStartsWith c6long "data:" = false := by decide
  have hlen : 50000 < strLength c6long := by
    show 50000 < (List.replicate 50001 'a').length
    rw [List.length_replicate]
    decide
  exact ⟨⟨by decide, C6_sanitizer.1 "data:abc" (by decide)⟩,
    ⟨hfalse, hlen, C6_sanitizer.2.1 c6long hfalse hlen⟩,
    ⟨by decide, by decide, C6_sanitizer.2.2 "hello" (by decide) (by decide)⟩⟩

/-- Claim C7: resolveInputs never fails: every variable entry whose name
resolves is replaced by the resolved value, every failing variable entry is
passed through unchanged with exactly one logged warning, and every file
entry is passed through unchanged; the node set, the edge list and the
variable store are untouched. -/
theorem C7_resolveInputs_total (ext : Ext) :
    ∀ (eng : WorkflowEngine) (inputs : List NodeInput),
      (resolveInputs ext eng inputs).2 = inputs.map (fun i =>
          match i.type with
          | .file => i
          | .var =>
              match resolveVariableValueV eng.vars i.value with
              | .ok v => { i with value := v }
              | .error _ => i) ∧
      (resolveInputs ext eng inputs).1.vars = eng.vars ∧
      (resolveInputs ext eng inputs).1.nodes = eng.nodes ∧
      (resolveInputs ext eng inputs).1.edges = eng.edges ∧
      (resolveInputs ext eng inputs).1.logs = eng.logs ++ inputs.filterMap (fun i =>
          match i.type with
          | .file => none
          | .var =>
              match resolveVariableValueV eng.vars i.value with
              | .ok _ => none
              | .error e => some ("[" ++ ext.timeStr ++ "] " ++ ("Warning: " ++ e))) := by
  intro eng inputs
  induction inputs generalizing eng with
  | nil => exact ⟨rfl, rfl, rfl, rfl, by simp [resolveInputs]⟩
  | cons i is ih =>
      simp only [resolveInputs, List.map_cons, List.filterMap_cons]
      cases hty : i.type
      case var =>
        cases hres : resolveVariableValueV eng.vars i.value
        case error e =>
          obtain ⟨h2, hv, hn, he, hl⟩ := ih (logLine ext eng ("Warning: " ++ e))
          refine ⟨?_, hv, hn, he, ?_⟩
          · exact congrArg (List.cons _) h2
          · rw [hl]
            show (eng.logs ++ _) ++ _ = _
            rw [List.append_assoc]
            rfl
        case ok v =>
          obtain ⟨h2, hv, hn, he, hl⟩ := ih eng
          exact ⟨congrArg (List.cons _) h2, hv, hn, he, hl⟩
      case file =>
        obtain ⟨h2, hv, hn, he, hl⟩ := ih eng
        exact ⟨congrArg (List.cons _) h2, hv, hn, he, hl⟩

/-- The mapping fold only writes through setVar: on the variable store it
is the corresponding fold over plain stores. -/
lemma foldl_applyMapping_vars (ext : Ext) (out : Value) :
    ∀ (ms : List OutputMapping) (acc : WorkflowEngine),
      (ms.foldl (applyMapping ext out) acc).vars =
        ms.foldl (fun vs m =>
          if !(m.field == "") && !(m.varName == "") then
            match getOwnProp out (strTrim m.field) with
            | some v => setVar vs (strTrim m.varName) v
            | none => vs
          else vs) acc.vars := by
  intro ms
  induction ms with
  | nil =>
      intro acc
      rfl
  | cons m ms ih =>
      intro acc
      simp only [List.foldl_cons]
      rw [ih]
      congr 1
      unfold applyMapping
      by_cases hc : (!(m.field == "") && !(m.varName == "")) = true
      · rw [if_pos hc, if_pos hc]
        rcases hg : getOwnProp out (strTrim m.field) with _ | v
        · rfl
        · rfl
      · rw [if_neg hc, if_neg hc]

/-- Claim C8: output extraction after a successful dispatch: on a
structured result the declared mappings are folded over the store, each
well-formed mapping whose field is present writing the field value under
the mapping variable and each absent field leaving the store unchanged
behind one warning; on a non-structured result the store is unchanged and
exactly one warning is logged; in the concrete example, result x:1,y:2 with
mapping x to n yields n = 1. -/
theorem C8_output_extraction :
    (∀ (ext : Ext) (eng : WorkflowEngine) (node : Node) (out : Value),
      strOptTruthy node.data.outputVariableName = false →
      isStructured out = true →
      (storeOutputs ext eng node out).vars =
        node.data.outputMappings.foldl (fun vs m =>
          if !(m.field == "") && !(m.varName == "") then
            match getOwnProp out (strTrim m.field) with
            | some v => setVar vs (strTrim m.varName) v
            | none => vs
          else vs) eng.vars) ∧
    (∀ (ext : Ext) (eng : WorkflowEngine) (node : Node) (out : Value),
      strOptTruthy node.data.outputVariableName = false →
      node.data.outputMappings.isEmpty = false →
      isStructured out = false →
      (storeOutputs ext eng node out).vars = eng.vars ∧
      (storeOutputs ext eng node out).logs = eng.logs ++
        ["[" ++ ext.timeStr ++ "] " ++
          "Warning: Output Mappings ignored because output is not an object."]) ∧
    (∀ (ext : Ext) (out : Value) (acc : WorkflowEngine) (m : OutputMapping),
      (!(m.field == "") && !(m.varName == "")) = true →
      getOwnProp out (strTrim m.field) = none →
      applyMapping ext out acc m = logLine ext acc
        ("Warning: Field \x27" ++ strTrim m.field ++ "\x27 not found in output.")) ∧
    lookupVar (storeOutputs c8ext c8eng c8node c8out).vars "n" = some (.num 1) := by
  refine ⟨?_, ?_, ?_, rfl⟩
  · intro ext eng node out hov hstr
    unfold storeOutputs
    have hprim : storePrimaryOutput ext eng node out = eng := by
      unfold storePrimaryOutput
      rw [if_neg (by simp [hov])]
    by_cases hme : node.data.outputMappings.isEmpty
    · rw [if_neg (by simp [hme]), hprim, List.isEmpty_iff.mp hme]
      rfl
    · rw [if_pos (by simp [hme]), if_pos hstr, foldl_applyMapping_vars, hprim]
  · intro ext eng node out hov hme hstr
    unfold storeOutputs
    rw [if_pos (by simp [hme]), if_neg (by simp [hstr])]
    have hprim : storePrimaryOutput ext eng node out = eng := by
      unfold storePrimaryOutput
      rw [if_neg (by simp [hov])]
    rw [hprim]
    exact ⟨rfl, rfl⟩
  · intro ext out acc m hc hg
    unfold applyMapping
    rw [if_pos hc, hg]

/-- Witness for C8: the three general conjuncts at the concrete extraction
scenario (structured result, plain-string result, absent field). -/
theorem C8_output_extraction_witness :
    (strOptTruthy c8node.data.outputVariableName = false ∧ isStructured c8out = true ∧
      (storeOutputs c8ext c8eng c8node c8out).vars =
        c8node.data.outputMappings.foldl (fun vs m =>
          if !(m.field == "") && !(m.varName == "") then
            match getOwnProp c8out (strTrim m.field) with
            | some v => setVar vs (strTrim m.varName) v
            | none => vs
          else vs) c8eng.vars) ∧
    (c8node.data.outputMappings.isEmpty = false ∧ isStructured (Value.str "s") = false ∧
      (storeOutputs c8ext c8eng c8node (.str "s")).vars = c8eng.vars ∧
      (storeOutputs c8ext c8eng c8node (.str "s")).logs = c8eng.logs ++
        ["[" ++ c8ext.timeStr ++ "] " ++
          "Warning: Output Mappings ignored because output is not an object."]) ∧
    ((!(("z" : String) == "") && !(("w" : String) == "")) = true ∧
      getOwnProp c8out (strTrim "z") = none ∧
      applyMapping c8ext c8out c8eng { field := "z", varName := "w" } =
        logLine c8ext c8eng
          ("Warning: Field \x27" ++ strTrim "z" ++ "\x27 not found in output.")) :=
  ⟨⟨by decide, by decide,
      C8_output_extraction.1 c8ext c8eng c8node c8out (by decide) (by decide)⟩,
   ⟨by decide, by decide,
      C8_output_extraction.2.1 c8ext c8eng c8node (.str "s") (by decide) (by decide) (by decide)⟩,
   ⟨by decide, rfl,
      C8_output_extraction.2.2.1 c8ext c8out c8eng { field := "z", varName := "w" }
        (by decide) rfl⟩⟩

/-- Claim C1: failure isolation.  First the general invariant: whenever the
guarded pipeline (resolution and dispatch) of a node throws, executeNode
returns normally with only that node marked error; the variable store and
the status, errorMessage and outputValue of every other node are exactly as
before, so nothing reachable only through the failing node runs, and log
lines are only appended.  Second the sibling instance: in the concrete
graph trigger to A and trigger to B where the dispatch of A fails, the run
still brings B to success. -/
theorem C1_failure_isolation :
    (∀ (fuel : Nat) (ext : Ext) (eng : WorkflowEngine) (node : Node) (input : Value)
        (eng1 : WorkflowEngine) (msg : String),
      nodePipeline ext eng node input = (eng1, .error msg) →
      (∃ n ∈ eng.nodes, n.id = node.id) →
      ∃ final, executeNode (fuel + 1) ext eng node input = some final ∧
        statusOf final node.id = some .error ∧
        final.vars = eng.vars ∧
        (∀ m, ¬ m = node.id →
          statusOf final m = statusOf eng m ∧
          errorMessageOf final m = errorMessageOf eng m ∧
          outputValueOf final m = outputValueOf eng m) ∧
        ∃ w, final.logs = eng.logs ++ w) ∧
    (statusOf c1res "T1" = some .success ∧ statusOf c1res "A" = some .error ∧
      statusOf c1res "B" = some .success) := by
  constructor
  · intro fuel ext eng node input eng1 msg hp hmem
    have hlo := nodePipeline_logOnly ext eng node input
    rw [hp] at hlo
    obtain ⟨hst, _, hvars, _, hother, hlogs⟩ := catchErr_spec ext eng eng1 node msg hlo hmem
    exact ⟨catchErr ext eng1 node msg,
      executeNode_pipeline_error fuel ext eng node input eng1 msg hp,
      hst, hvars, hother, hlogs⟩
  · exact ⟨by decide, by decide, by decide⟩

/-- Witness for the general part of C1: a node whose prompt references an
unknown variable; its pipeline throws, the invariant applies. -/
theorem C1_failure_isolation_witness :
    nodePipeline c1ext c1weng c1wnode (.str "go") =
      ((nodePipeline c1ext c1weng c1wnode (.str "go")).1, .error (unresolvedMsg "x" [])) ∧
    (∃ n ∈ c1weng.nodes, n.id = c1wnode.id) ∧
    (∃ final, executeNode 1 c1ext c1weng c1wnode (.str "go") = some final ∧
      statusOf final c1wnode.id = some .error ∧ final.vars = c1weng.vars) := by
  have hmem : ∃ n ∈ c1weng.nodes, n.id = c1wnode.id :=
    ⟨c1wnode, List.mem_singleton.mpr rfl, rfl⟩
  obtain ⟨final, hex, hst, hvars, _, _⟩ :=
    C1_failure_isolation.1 0 c1ext c1weng c1wnode (.str "go")
      ((nodePipeline c1ext c1weng c1wnode (.str "go")).1) (unresolvedMsg "x" []) rfl hmem
  exact ⟨rfl, hmem, final, hex, hst, hvars⟩

/-- Claim C9: the run entry point never raises.  When the graph has no
webhook trigger, run returns normally having only logged the start line and
the no-trigger error line, with every node status untouched.  Every error
thrown inside a node resolution or dispatch is caught there: executeNode
still returns a state, with the error recorded on that node as status error
and errorMessage. -/
theorem C9_run_no_throw :
    (∀ (fuel : Nat) (ext : Ext) (eng : WorkflowEngine),
      eng.nodes.find? (fun n => n.type == NodeType.webhook) = none →
      run fuel ext eng = some (logLine ext (logLine ext eng "Starting workflow execution...")
        "Error: No Webhook/Start trigger found.") ∧
      (∀ m, statusOf (logLine ext (logLine ext eng "Starting workflow execution...")
        "Error: No Webhook/Start trigger found.") m = statusOf eng m) ∧
      (logLine ext (logLine ext eng "Starting workflow execution...")
        "Error: No Webhook/Start trigger found.").vars = eng.vars) ∧
    (∀ (fuel : Nat) (ext : Ext) (eng : WorkflowEngine) (node : Node) (input : Value)
        (eng1 : WorkflowEngine) (msg : String),
      nodePipeline ext eng node input = (eng1, .error msg) →
      (∃ n ∈ eng.nodes, n.id = node.id) →
      ∃ final, executeNode (fuel + 1) ext eng node input = some final ∧
        statusOf final node.id = some .error ∧
        errorMessageOf final node.id = some msg) := by
  constructor
  · intro fuel ext eng h
    have h' : (logLine ext eng "Starting workflow execution...").nodes.find?
        (fun n => n.type == NodeType.webhook) = none := h
    refine ⟨?_, fun m => rfl, rfl⟩
    simp only [run]
    rw [h']
  · intro fuel ext eng node input eng1 msg hp hmem
    have hlo := nodePipeline_logOnly ext eng node input
    rw [hp] at hlo
    obtain ⟨hst, herr, _, _, _, _⟩ := catchErr_spec ext eng eng1 node msg hlo hmem
    exact ⟨catchErr ext eng1 node msg,
      executeNode_pipeline_error fuel ext eng node input eng1 msg hp, hst, herr⟩

/-- Witness for C9: a graph with no webhook node, and a node whose pipeline
throws. -/
theorem C9_run_no_throw_witness :
    c9eng.nodes.find? (fun n => n.type == NodeType.webhook) = none ∧
    run 5 c9ext c9eng = some (logLine c9ext (logLine c9ext c9eng
      "Starting workflow execution...") "Error: No Webhook/Start trigger found.") ∧
    (∃ final, executeNode 1 c9ext c9weng c9wnode (.str "go") = some final ∧
      statusOf final c9wnode.id = some .error ∧
      errorMessageOf final c9wnode.id = some (unresolvedMsg "missing" [])) := by
  have hnone : c9eng.nodes.find? (fun n => n.type == NodeType.webhook) = none := rfl
  obtain ⟨hrun, _, _⟩ := C9_run_no_throw.1 5 c9ext c9eng hnone
  obtain ⟨final, hex, hst, herr⟩ :=
    C9_run_no_throw.2 0 c9ext c9weng c9wnode (.str "go")
      ((nodePipeline c9ext c9weng c9wnode (.str "go")).1) (unresolvedMsg "missing" []) rfl
      ⟨c9wnode, List.mem_singleton.mpr rfl, rfl⟩
  exact ⟨hnone, hrun, final, hex, hst, herr⟩

/-- Claim C10, counterexample: in a self-loop graph the node m succeeds
once (storing variable r), re-enters itself, fails, and ends with status
error while the store still holds r: the store is not as it was when m
first started executing, refuting the claim as stated. -/
theorem C10_atomicity_counterexample :
    (executeNode 3 c10ext c10eng c10node (.str "start")).isSome = true ∧
    statusOf c10res "m" = some .error ∧
    envKeys c10eng.vars = [] ∧
    envKeys c10res.vars = ["r"] :=
  ⟨by decide, by decide, rfl, by decide⟩

/-- Claim C10 (amended): atomicity per invocation: whenever the resolution
or dispatch of a node throws, that invocation of executeNode leaves the
variable store exactly as it found it and marks the node error; variable
writes happen only in invocations whose resolution and dispatch succeed.
(A node re-entered through a cycle can end the run with status error while
keeping writes from an earlier successful invocation.) -/
theorem C10_atomicity_per_invocation :
    ∀ (fuel : Nat) (ext : Ext) (eng : WorkflowEngine) (node : Node) (input : Value)
        (eng1 : WorkflowEngine) (msg : String),
      nodePipeline ext eng node input = (eng1, .error msg) →
      (∃ n ∈ eng.nodes, n.id = node.id) →
      ∃ final, executeNode (fuel + 1) ext eng node input = some final ∧
        final.vars = eng.vars ∧ statusOf final node.id = some .error := by
  intro fuel ext eng node input eng1 msg hp hmem
  have hlo := nodePipeline_logOnly ext eng node input
  rw [hp] at hlo
  obtain ⟨hst, _, hvars, _, _, _⟩ := catchErr_spec ext eng eng1 node msg hlo hmem
  exact ⟨catchErr ext eng1 node msg,
    executeNode_pipeline_error fuel ext eng node input eng1 msg hp, hvars, hst⟩

/-- Witness for C10 (amended): the self-loop node invoked with a context on
which the stubbed service fails immediately. -/
theorem C10_atomicity_per_invocation_witness :
    nodePipeline c10ext c10eng c10node (.str "other") =
      ((nodePipeline c10ext c10eng c10node (.str "other")).1, .error "boom") ∧
    (∃ final, executeNode 1 c10ext c10eng c10node (.str "other") = some final ∧
      final.vars = c10eng.vars ∧ statusOf final "m" = some .error) := by
  obtain ⟨final, hex, hvars, hst⟩ :=
    C10_atomicity_per_invocation 0 c10ext c10eng c10node (.str "other")
      ((nodePipeline c10ext c10eng c10node (.str "other")).1) "boom" rfl
      ⟨c10node, List.mem_singleton.mpr rfl, rfl⟩
  exact ⟨rfl, final, hex, hvars, hst⟩

/-- Claim C2, counterexample: in the scenario exactly as stated (trigger
payload only, no output mapping on the trigger), the placeholder n is
resolved against the variable store, which the trigger never populated, so
the generate-text node ends in error with the unresolved-variable message,
and the variable result is never written. -/
theorem C2_end_to_end_counterexample :
    (run 10 c2ext c2eng).isSome = true ∧
    statusOf c2res "t" = some .success ∧
    statusOf c2res "g" = some .error ∧
    errorMessageOf c2res "g" = some (unresolvedMsg "n" []) ∧
    lookupVar c2res.vars "result" = none :=
  ⟨by decide, by decide, by decide, by decide, rfl⟩

/-- Claim C2 (amended): with the trigger additionally declaring the output
mapping field n to variable n, the run stores 5 under n, the prompt
resolves, the stubbed service returns the string 10, which is stored under
result, and both nodes end with status success. -/
theorem C2_end_to_end :
    statusOf c2res2 "t" = some .success ∧
    statusOf c2res2 "g" = some .success ∧
    lookupVar c2res2.vars "result" = some (.str "10") ∧
    lookupVar c2res2.vars "n" = some (.num 5) :=
  ⟨by decide, by decide, rfl, rfl⟩

end Workflow
